import Mathlib

/-!
Verification of the google-tasks-agent core logic: a shallow embedding of
the state store (`state.py`), the result parser and validator (`agent.py`),
and the reconciliation pipeline (`run_agent`), together with theorems
settling the spec's testable properties.

Machine strings are Lean `String`s; Python's `json.loads` / `json.dump` are
modelled by an executable JSON value type with a recursive-descent decoder
and a serializer; file-system effects are modelled by explicit operation
lists over a small file-system state.
-/

namespace GTA

/-- JSON values as produced by Python's `json.loads`.  Numbers are exact
rationals (the state pipeline never stores non-integers, and Python's
float representation is irrelevant to every claim below).  Objects keep
key order; duplicate keys are collapsed with dict-update semantics at
parse time. -/
inductive Json where
  | null
  | bool (b : Bool)
  | num (q : Rat)
  | str (s : String)
  | arr (elems : List Json)
  | obj (members : List (String × Json))
  deriving Repr

/-- Python truthiness for JSON-decoded values, used by
`if message.structured_output:` in `run_agent`. -/
def jsonTruthy : Json → Bool
  | .null => false
  | .bool b => b
  | .num q => q != 0
  | .str s => !s.isEmpty
  | .arr xs => !xs.isEmpty
  | .obj ms => !ms.isEmpty

/-- The JSON whitespace characters accepted by Python's decoder. -/
def jsonWs (c : Char) : Bool :=
  c == ' ' || c == '\t' || c == '\n' || c == '\r'

/-- Drop leading JSON whitespace. -/
def skipWs : List Char → List Char
  | [] => []
  | c :: cs => if jsonWs c then skipWs cs else c :: cs

/-- Value of a hexadecimal digit, if any. -/
def hexVal (c : Char) : Option Nat :=
  if '0' ≤ c ∧ c ≤ '9' then some (c.toNat - '0'.toNat)
  else if 'a' ≤ c ∧ c ≤ 'f' then some (c.toNat - 'a'.toNat + 10)
  else if 'A' ≤ c ∧ c ≤ 'F' then some (c.toNat - 'A'.toNat + 10)
  else none

/-- Four hex digits, as in a `\uXXXX` escape. -/
def parseHex4 : List Char → Option (Nat × List Char)
  | a :: b :: c :: d :: rest => do
    let x ← hexVal a
    let y ← hexVal b
    let z ← hexVal c
    let w ← hexVal d
    some (((x * 16 + y) * 16 + z) * 16 + w, rest)
  | _ => none

/-- Body of a JSON string after the opening quote.  Escapes follow the
JSON grammar; a surrogate pair in `\u` escapes is combined as Python
does.  (A lone surrogate, which Python would keep as-is, has no `Char`
representation and is mapped through `Char.ofNat`; no claim depends on
it.)  Unescaped control characters are rejected, as in strict mode. -/
def parseStringBody (fuel : Nat) (acc : List Char) (cs : List Char) :
    Except String (String × List Char) :=
  match fuel with
  | 0 => .error "string: out of fuel"
  | fuel + 1 =>
    match cs with
    | [] => .error "unterminated string"
    | '"' :: rest => .ok (String.mk acc.reverse, rest)
    | '\\' :: e :: rest =>
      match e with
      | '"' => parseStringBody fuel ('"' :: acc) rest
      | '\\' => parseStringBody fuel ('\\' :: acc) rest
      | '/' => parseStringBody fuel ('/' :: acc) rest
      | 'b' => parseStringBody fuel ('\x08' :: acc) rest
      | 'f' => parseStringBody fuel ('\x0c' :: acc) rest
      | 'n' => parseStringBody fuel ('\n' :: acc) rest
      | 'r' => parseStringBody fuel ('\r' :: acc) rest
      | 't' => parseStringBody fuel ('\t' :: acc) rest
      | 'u' =>
        match parseHex4 rest with
        | none => .error "invalid unicode escape"
        | some (hi, rest1) =>
          if 0xd800 ≤ hi ∧ hi ≤ 0xdbff then
            match rest1 with
            | '\\' :: 'u' :: rest2 =>
              match parseHex4 rest2 with
              | some (lo, rest3) =>
                if 0xdc00 ≤ lo ∧ lo ≤ 0xdfff then
                  parseStringBody fuel
                    (Char.ofNat (0x10000 + (hi - 0xd800) * 0x400 + (lo - 0xdc00)) :: acc) rest3
                else parseStringBody fuel (Char.ofNat hi :: acc) rest1
              | none => parseStringBody fuel (Char.ofNat hi :: acc) rest1
            | _ => parseStringBody fuel (Char.ofNat hi :: acc) rest1
          else parseStringBody fuel (Char.ofNat hi :: acc) rest1
      | _ => .error "invalid escape"
    | c :: rest =>
      if c.toNat < 0x20 then .error "control character in string"
      else parseStringBody fuel (c :: acc) rest

/-- Longest leading run of decimal digits. -/
def takeDigits : List Char → List Char × List Char
  | [] => ([], [])
  | c :: cs =>
    if c.isDigit then
      let (ds, rest) := takeDigits cs
      (c :: ds, rest)
    else ([], c :: cs)

/-- Numeric value of a digit run. -/
def digitsVal (l : List Char) : Nat :=
  l.foldl (fun a c => a * 10 + (c.toNat - 48)) 0

/-- Integer power of ten as a rational. -/
def pow10 (e : Int) : Rat :=
  if 0 ≤ e then ((10 : Rat) ^ e.toNat) else 1 / ((10 : Rat) ^ (-e).toNat)

/-- Fractional part of a JSON number, if present. -/
def parseFrac : List Char → Except String (List Char × List Char)
  | '.' :: r =>
    let (ds, rest) := takeDigits r
    if ds.isEmpty then .error "expected digits after decimal point"
    else .ok (ds, rest)
  | cs => .ok ([], cs)

/-- Exponent digits with optional sign. -/
def parseExpTail (cs : List Char) : Except String (Int × List Char) :=
  let (sgn, r) :=
    match cs with
    | '+' :: r => ((1 : Int), r)
    | '-' :: r => ((-1 : Int), r)
    | _ => ((1 : Int), cs)
  let (ds, rest) := takeDigits r
  if ds.isEmpty then .error "expected exponent digits"
  else .ok (sgn * (digitsVal ds : Int), rest)

/-- Exponent part of a JSON number, if present. -/
def parseExp : List Char → Except String (Int × List Char)
  | 'e' :: r => parseExpTail r
  | 'E' :: r => parseExpTail r
  | cs => .ok ((0 : Int), cs)

/-- A JSON number per the grammar (no leading zeros, NaN and Infinity are
rejected: they are non-standard extensions Python accepts but the state
pipeline never produces, and `Rat` cannot represent them). -/
def parseNumber (cs0 : List Char) : Except String (Rat × List Char) :=
  let (neg, cs1) :=
    match cs0 with
    | '-' :: r => (true, r)
    | _ => (false, cs0)
  let (ids, cs2) := takeDigits cs1
  if ids.isEmpty then .error "expected a number"
  else if ids.length ≥ 2 && (ids.headD 'x' == '0') then .error "leading zero"
  else
    match parseFrac cs2 with
    | .error e => .error e
    | .ok (fds, cs3) =>
      match parseExp cs3 with
      | .error e => .error e
      | .ok (ex, cs4) =>
        let mant : Int := Int.ofNat (digitsVal (ids ++ fds))
        let mant : Int := if neg then -mant else mant
        .ok ((mant : Rat) * pow10 (ex - (fds.length : Int)), cs4)

/-- Update an ordered member list with one more key/value pair, with
Python dict semantics: an existing key keeps its position and takes the
new value, a fresh key is appended. -/
def updateMember : List (String × Json) → String → Json → List (String × Json)
  | [], k, v => [(k, v)]
  | (k', v') :: ms, k, v =>
    if k' == k then (k', v) :: ms else (k', v') :: updateMember ms k v

/-- Collapse duplicate keys of a parsed pair list into dict semantics. -/
def dedupMembers (ps : List (String × Json)) : List (String × Json) :=
  ps.foldl (fun acc p => updateMember acc p.1 p.2) []

mutual

/-- One JSON value at the head of the input (no leading whitespace). -/
def parseVal : Nat → List Char → Except String (Json × List Char)
  | 0, _ => .error "out of fuel"
  | _ + 1, [] => .error "unexpected end of input"
  | _ + 1, 'n' :: 'u' :: 'l' :: 'l' :: r => .ok (.null, r)
  | _ + 1, 't' :: 'r' :: 'u' :: 'e' :: r => .ok (.bool true, r)
  | _ + 1, 'f' :: 'a' :: 'l' :: 's' :: 'e' :: r => .ok (.bool false, r)
  | _ + 1, '"' :: r =>
    match parseStringBody (r.length + 1) [] r with
    | .error e => .error e
    | .ok (s, rest) => .ok (.str s, rest)
  | fuel + 1, '[' :: r =>
    (match skipWs r with
     | ']' :: rest => .ok (.arr [], rest)
     | r' =>
       match parseArrElems fuel r' with
       | .error e => .error e
       | .ok (vs, rest) => .ok (.arr vs, rest))
  | fuel + 1, '\x7b' :: r =>
    (match skipWs r with
     | '\x7d' :: rest => .ok (.obj [], rest)
     | r' =>
       match parseObjMembers fuel r' with
       | .error e => .error e
       | .ok (ps, rest) => .ok (.obj (dedupMembers ps), rest))
  | _ + 1, cs =>
    match parseNumber cs with
    | .error e => .error e
    | .ok (q, rest) => .ok (.num q, rest)

/-- Non-empty comma-separated array elements up to the closing bracket. -/
def parseArrElems : Nat → List Char → Except String (List Json × List Char)
  | 0, _ => .error "out of fuel"
  | fuel + 1, cs =>
    match parseVal fuel (skipWs cs) with
    | .error e => .error e
    | .ok (v, rest) =>
      match skipWs rest with
      | ',' :: r2 =>
        (match parseArrElems fuel r2 with
         | .error e => .error e
         | .ok (vs, r3) => .ok (v :: vs, r3))
      | ']' :: r2 => .ok ([v], r2)
      | _ => .error "expected comma or closing bracket"

/-- Non-empty comma-separated object members up to the closing brace. -/
def parseObjMembers : Nat → List Char → Except String (List (String × Json) × List Char)
  | 0, _ => .error "out of fuel"
  | fuel + 1, cs =>
    match skipWs cs with
    | '"' :: r =>
      (match parseStringBody (r.length + 1) [] r with
       | .error e => .error e
       | .ok (k, r1) =>
         match skipWs r1 with
         | ':' :: r2 =>
           (match parseVal fuel (skipWs r2) with
            | .error e => .error e
            | .ok (v, r3) =>
              match skipWs r3 with
              | ',' :: r4 =>
                (match parseObjMembers fuel r4 with
                 | .error e => .error e
                 | .ok (ps, r5) => .ok ((k, v) :: ps, r5))
              | '\x7d' :: r4 => .ok ([(k, v)], r4)
              | _ => .error "expected comma or closing brace")
         | _ => .error "expected colon")
    | _ => .error "expected a string key"

end

/-- Python's `json.loads`: decode a whole string as one JSON document,
allowing surrounding whitespace and nothing else. -/
def parseJson (s : String) : Except String Json :=
  let cs := skipWs s.toList
  match parseVal (cs.length + 1) cs with
  | .error e => .error e
  | .ok (v, rest) =>
    if (skipWs rest).isEmpty then .ok v else .error "extra data"

/-- Whether a decode attempt succeeded. -/
def exOk (e : Except String Json) : Bool :=
  match e with
  | .ok _ => true
  | .error _ => false

/-! ## Configuration (`config.py`) -/

/-- `MAX_SEEN_IDS` from `config.py`. -/
def MAX_SEEN_IDS : Nat := 500

/-- `HIGH_PRIORITY_SENDERS` from `config.py`. -/
def HIGH_PRIORITY_SENDERS : List String :=
  ["hr@", "human.resources@", "humanresources@", "people@", "peopleops@",
   "legal@", "compliance@", "ethics@",
   "finance@", "accounting@", "payroll@", "expenses@",
   "security@", "it-security@", "infosec@"]

/-! ## Data model (`models.py`) -/

/-- `ActionItem` from `models.py`, same fields and defaults. -/
structure ActionItem where
  id : String
  subject : String
  sender : String
  priority : String
  action : String
  notified_at : String
  due_date : Option String := none
  create_task : Bool := false
  task_created : Bool := false
  source_type : String := "email"
  related_meeting : Option String := none
  group : Option String := none
  deriving Repr, DecidableEq

/-- One raw entry of the agent reply's `action_items` array, as consumed
by `parse_action_items`: each field is `none` when the key is absent.
The output schema in `run_agent` fixes the field types, so a present key
always carries a value of the right type. -/
structure RawItem where
  id : Option String := none
  subject : Option String := none
  sender : Option String := none
  priority : Option String := none
  action : Option String := none
  due_date : Option String := none
  create_task : Option Bool := none
  task_created : Option Bool := none
  source_type : Option String := none
  related_meeting : Option String := none
  deriving Repr, DecidableEq

/-! ## Substring search (Python's `in`, `str.find`, `str.rfind`) -/

/-- Index of the first occurrence of `needle` in the remaining text,
counting from `i`. -/
def findSubAux (needle : List Char) : List Char → Nat → Option Nat
  | [], i => if needle.isPrefixOf [] then some i else none
  | c :: cs, i =>
    if needle.isPrefixOf (c :: cs) then some i else findSubAux needle cs (i + 1)

/-- Python `hay.find(needle)`, as an `Option` instead of `-1`. -/
def findSub (hay needle : List Char) : Option Nat :=
  findSubAux needle hay 0

/-- Python `hay.find(needle, start)`. -/
def findSubFrom (hay needle : List Char) (start : Nat) : Option Nat :=
  (findSubAux needle (hay.drop start) 0).map (· + start)

/-- Python `needle in hay` on strings. -/
def hasSub (hay needle : String) : Bool :=
  (findSub hay.toList needle.toList).isSome

/-- Index of the last occurrence of character `c`, scanning with a best
index so far. -/
def rfindCharAux (c : Char) : List Char → Nat → Option Nat → Option Nat
  | [], _, best => best
  | x :: xs, i, best =>
    rfindCharAux c xs (i + 1) (if x == c then some i else best)

/-- Python `hay.rfind(c)` for a single character, as an `Option`. -/
def rfindChar (hay : List Char) (c : Char) : Option Nat :=
  rfindCharAux c hay 0 none

/-- Python `str.strip()` whitespace set. -/
def pyWsChar (c : Char) : Bool :=
  c == ' ' || c == '\t' || c == '\n' || c == '\r' || c == '\x0b' || c == '\x0c'

/-- Python `str.strip()`. -/
def stripWs (cs : List Char) : List Char :=
  ((cs.dropWhile pyWsChar).reverse.dropWhile pyWsChar).reverse

/-! ## Result parser (`agent.py`: `_extract_json`, `parse_action_items`) -/

/-- The text-rewriting phase of `_extract_json` in `agent.py`: the branch
is chosen by the first of the markers `"```json"`, `"```"`, `"\x7b"`
occurring in the text; a fence interior is taken (and stripped) only when
a closing fence follows, and the brace slice only when the last `"\x7d"`
ends after the first `"\x7b"`; otherwise the text is left unchanged. -/
def extractCandidate (text : String) : String :=
  let cs := text.toList
  let fj := "```json".toList
  let f3 := "```".toList
  match findSub cs fj with
  | some i =>
    (match findSubFrom cs f3 (i + 7) with
     | some e => String.mk (stripWs ((cs.drop (i + 7)).take (e - (i + 7))))
     | none => text)
  | none =>
    match findSub cs f3 with
    | some i =>
      (match findSubFrom cs f3 (i + 3) with
       | some e => String.mk (stripWs ((cs.drop (i + 3)).take (e - (i + 3))))
       | none => text)
    | none =>
      match findSub cs ("\x7b".toList) with
      | some s =>
        (match rfindChar cs '\x7d' with
         | some e => if e + 1 > s then String.mk ((cs.drop s).take (e + 1 - s)) else text
         | none => text)
      | none => text

/-- `_extract_json` from `agent.py`: rewrite the text, then decode it. -/
def extract_json (text : String) : Except String Json :=
  parseJson (extractCandidate text)

/-- Modelled from the spec: the extraction policy as §4.2 words it, for
comparison with `extract_json`.  A fenced block is present only when a
closing fence follows the opening marker; with no complete block the next
strategy applies (the code, by contrast, commits to a branch on seeing
the opening marker alone). -/
def specExtractCandidate (text : String) : String :=
  let cs := text.toList
  let fj := "```json".toList
  let f3 := "```".toList
  let jsonBlock :=
    match findSub cs fj with
    | some i =>
      (match findSubFrom cs f3 (i + 7) with
       | some e => some (String.mk (stripWs ((cs.drop (i + 7)).take (e - (i + 7)))))
       | none => none)
    | none => none
  let anyBlock :=
    match findSub cs f3 with
    | some i =>
      (match findSubFrom cs f3 (i + 3) with
       | some e => some (String.mk (stripWs ((cs.drop (i + 3)).take (e - (i + 3)))))
       | none => none)
    | none => none
  let braceSlice :=
    match findSub cs ("\x7b".toList), rfindChar cs '\x7d' with
    | some s, some e => if e + 1 > s then some (String.mk ((cs.drop s).take (e + 1 - s))) else none
    | _, _ => none
  match jsonBlock with
  | some t => t
  | none =>
    match anyBlock with
    | some t => t
    | none =>
      match braceSlice with
      | some t => t
      | none => text

/-- Extraction following the spec's words, then decoding. -/
def specExtractJson (text : String) : Except String Json :=
  parseJson (specExtractCandidate text)

/-- Lower-casing of one character, ASCII range. -/
def lowerChar (c : Char) : Char :=
  if 'A' ≤ c ∧ c ≤ 'Z' then Char.ofNat (c.toNat + 32) else c

/-- Python's `str.lower()`, restricted to the ASCII letters: the
configured sender patterns and every sender the overrides compare
against are ASCII, so the full Unicode case mapping is not needed. -/
def strLower (s : String) : String :=
  String.mk (s.toList.map lowerChar)

/-- The sender-pattern loop of `parse_action_items` (`for pattern in
HIGH_PRIORITY_SENDERS: if pattern in sender: create_task = True; break`). -/
def forceForSenders : List String → String → Bool → Bool
  | [], _, ct => ct
  | p :: ps, sender, ct =>
    if hasSub sender p then true else forceForSenders ps sender ct

/-- The loop body of `parse_action_items` in `agent.py` for one raw item:
defaults, the forced `create_task` override chain, and the `ActionItem`
construction. -/
def parseOneItem (now : String) (d : RawItem) : ActionItem :=
  let sender := strLower (d.sender.getD "(unknown)")
  let priority := d.priority.getD "MEDIUM"
  let source_type := d.source_type.getD "email"
  let ct0 := d.create_task.getD false
  let ct1 := if !ct0 && (priority == "HIGH") then true else ct0
  let ct2 := if !ct1 && (source_type == "gemini_notes") then true else ct1
  let ct3 := if !ct2 && (source_type == "starred") then true else ct2
  let ct4 := if !ct3 then forceForSenders HIGH_PRIORITY_SENDERS sender ct3 else ct3
  { id := d.id.getD ""
    subject := d.subject.getD "(unknown)"
    sender := d.sender.getD "(unknown)"
    priority := priority
    action := d.action.getD ""
    notified_at := now
    due_date := d.due_date
    create_task := ct4
    task_created := d.task_created.getD false
    source_type := source_type
    related_meeting := d.related_meeting
    group := none }

/-- `parse_action_items` from `agent.py`, over the already-typed raw
items; the loop appends to `items` in input order. -/
def parse_action_items (now : String) (raws : List RawItem) : List ActionItem :=
  raws.foldl (fun acc d => acc ++ [parseOneItem now d]) []

/-! ## State store (`state.py`) -/

/-- The run-state record of `state.py` (the four keys the pipeline reads
and writes). -/
structure RunState where
  seen_message_ids : List String := []
  seen_secondary_event_ids : List String := []
  last_check : Option String := none
  last_action_items : List ActionItem := []
  deriving Repr, DecidableEq

/-- The default state dict returned by `load_state`, as a JSON value. -/
def default_state_json : Json :=
  .obj [("seen_message_ids", .arr []),
        ("seen_secondary_event_ids", .arr []),
        ("last_check", .null),
        ("last_action_items", .arr [])]

/-- Strict UTF-8 decoding of a byte sequence, as `f.read()` performs on
a text-mode file: rejects bad lead and continuation bytes, overlong
encodings, surrogate code points and values beyond `0x10ffff`, exactly
the sequences on which Python raises `UnicodeDecodeError`. -/
def utf8Decode : List Nat → Option (List Char)
  | [] => some []
  | b :: rest =>
    if b < 0x80 then
      match utf8Decode rest with
      | some cs => some (Char.ofNat b :: cs)
      | none => none
    else if 0xc2 ≤ b ∧ b ≤ 0xdf then
      match rest with
      | b2 :: rest2 =>
        if 0x80 ≤ b2 ∧ b2 ≤ 0xbf then
          match utf8Decode rest2 with
          | some cs => some (Char.ofNat ((b - 0xc0) * 0x40 + (b2 - 0x80)) :: cs)
          | none => none
        else none
      | [] => none
    else if 0xe0 ≤ b ∧ b ≤ 0xef then
      match rest with
      | b2 :: b3 :: rest3 =>
        let lo2 := if b = 0xe0 then 0xa0 else 0x80
        let hi2 := if b = 0xed then 0x9f else 0xbf
        if lo2 ≤ b2 ∧ b2 ≤ hi2 ∧ 0x80 ≤ b3 ∧ b3 ≤ 0xbf then
          match utf8Decode rest3 with
          | some cs =>
            some (Char.ofNat ((b - 0xe0) * 0x1000 + (b2 - 0x80) * 0x40 + (b3 - 0x80)) :: cs)
          | none => none
        else none
      | _ => none
    else if 0xf0 ≤ b ∧ b ≤ 0xf4 then
      match rest with
      | b2 :: b3 :: b4 :: rest4 =>
        let lo2 := if b = 0xf0 then 0x90 else 0x80
        let hi2 := if b = 0xf4 then 0x8f else 0xbf
        if lo2 ≤ b2 ∧ b2 ≤ hi2 ∧ 0x80 ≤ b3 ∧ b3 ≤ 0xbf ∧ 0x80 ≤ b4 ∧ b4 ≤ 0xbf then
          match utf8Decode rest4 with
          | some cs =>
            some (Char.ofNat ((b - 0xf0) * 0x40000 + (b2 - 0x80) * 0x1000 +
                              (b3 - 0x80) * 0x40 + (b4 - 0x80)) :: cs)
          | none => none
        else none
      | _ => none
    else none

/-- UTF-8 encoding of one character. -/
def utf8EncodeChar (c : Char) : List Nat :=
  let n := c.toNat
  if n < 0x80 then [n]
  else if n < 0x800 then [0xc0 + n / 0x40, 0x80 + n % 0x40]
  else if n < 0x10000 then
    [0xe0 + n / 0x1000, 0x80 + n / 0x40 % 0x40, 0x80 + n % 0x40]
  else
    [0xf0 + n / 0x40000, 0x80 + n / 0x1000 % 0x40, 0x80 + n / 0x40 % 0x40, 0x80 + n % 0x40]

/-- UTF-8 encoding of a string, for writing concrete text-file contents
as byte sequences. -/
def utf8Encode (s : String) : List Nat :=
  s.toList.foldr (fun c acc => utf8EncodeChar c ++ acc) []

/-- A Python exception that escapes `load_state`: a state file whose
bytes are not valid UTF-8 makes `f.read()` inside `json.load` raise
`UnicodeDecodeError`, which is a `ValueError` but neither a
`json.JSONDecodeError` nor an `IOError`, so the `except` clause in
`state.py` does not catch it and the call raises. -/
inductive PyError where
  | unicodeDecodeError
  deriving Repr, DecidableEq

/-- `load_state` from `state.py`: the backing file is given as `none`
(missing) or its raw bytes.  Bytes that are not valid UTF-8 raise
(uncaught `UnicodeDecodeError`); text that fails to parse as JSON is
swallowed and the default state returned; a successful decode is
returned as-is, with no schema validation. -/
def load_state (file : Option (List Nat)) : Except PyError Json :=
  match file with
  | none => .ok default_state_json
  | some bs =>
    match utf8Decode bs with
    | none => .error .unicodeDecodeError
    | some cs =>
      match parseJson (String.mk cs) with
      | .ok j => .ok j
      | .error _ => .ok default_state_json

/-- Whether a `load_state` call returned (rather than raised). -/
def loadOk (r : Except PyError Json) : Bool :=
  match r with
  | .ok _ => true
  | .error _ => false

/-- The id-list cap of `save_state` (`state["..."][-MAX_SEEN_IDS:]`,
applied only when the length exceeds the cap). -/
def boundIds (l : List String) : List String :=
  if l.length > MAX_SEEN_IDS then l.drop (l.length - MAX_SEEN_IDS) else l

/-- The in-place trimming `save_state` performs on the state before
writing it out. -/
def save_state_trim (st : RunState) : RunState :=
  { st with
    seen_message_ids := boundIds st.seen_message_ids
    seen_secondary_event_ids := boundIds st.seen_secondary_event_ids }

/-! ### Serialization (`json.dump(state, f, indent=2)`) -/

/-- One hex digit, lowercase as in Python's `\\u` escapes. -/
def hexDigitChar (n : Nat) : Char :=
  if n < 10 then Char.ofNat (48 + n) else Char.ofNat (87 + n)

/-- A `\\uXXXX` escape for a code unit. -/
def uEsc (n : Nat) : List Char :=
  ['\\', 'u', hexDigitChar (n / 4096 % 16), hexDigitChar (n / 256 % 16),
   hexDigitChar (n / 16 % 16), hexDigitChar (n % 16)]

/-- Escaping of one character in a dumped JSON string, with
`ensure_ascii=True` as Python defaults to. -/
def escJsonChar (c : Char) : List Char :=
  if c == '"' then ['\\', '"']
  else if c == '\\' then ['\\', '\\']
  else if c == '\n' then ['\\', 'n']
  else if c == '\r' then ['\\', 'r']
  else if c == '\t' then ['\\', 't']
  else if c == '\x08' then ['\\', 'b']
  else if c == '\x0c' then ['\\', 'f']
  else if 0x20 ≤ c.toNat ∧ c.toNat ≤ 0x7e then [c]
  else if c.toNat < 0x10000 then uEsc c.toNat
  else uEsc (0xd800 + (c.toNat - 0x10000) / 0x400) ++
       uEsc (0xdc00 + (c.toNat - 0x10000) % 0x400)

/-- A dumped JSON string with quotes. -/
def renderJsonString (s : String) : String :=
  String.mk ('"' :: s.toList.foldr (fun c acc => escJsonChar c ++ acc) ['"'])

/-- `indent=2` prefix for a nesting level. -/
def ind (lvl : Nat) : String :=
  String.mk (List.replicate (2 * lvl) ' ')

/-- A dumped optional string (`null` when absent). -/
def renderOptStr : Option String → String
  | none => "null"
  | some s => renderJsonString s

/-- A dumped boolean. -/
def renderBool : Bool → String
  | true => "true"
  | false => "false"

/-- A dumped object from pre-rendered values, following `json.dump`'s
`indent=2` layout. -/
def renderObjLines (lvl : Nat) (ps : List (String × String)) : String :=
  match ps with
  | [] => "\x7b\x7d"
  | _ =>
    "\x7b\n" ++
    String.intercalate ",\n"
      (ps.map fun p => ind (lvl + 1) ++ renderJsonString p.1 ++ ": " ++ p.2) ++
    "\n" ++ ind lvl ++ "\x7d"

/-- A dumped list of strings with `indent=2` layout. -/
def renderStrList (lvl : Nat) : List String → String
  | [] => "[]"
  | xs =>
    "[\n" ++
    String.intercalate ",\n" (xs.map fun s => ind (lvl + 1) ++ renderJsonString s) ++
    "\n" ++ ind lvl ++ "]"

/-- The dumped key/value pairs of one `ActionItem`, in `dataclasses.asdict`
field order. -/
def actionItemPairs (a : ActionItem) : List (String × String) :=
  [("id", renderJsonString a.id),
   ("subject", renderJsonString a.subject),
   ("sender", renderJsonString a.sender),
   ("priority", renderJsonString a.priority),
   ("action", renderJsonString a.action),
   ("notified_at", renderJsonString a.notified_at),
   ("due_date", renderOptStr a.due_date),
   ("create_task", renderBool a.create_task),
   ("task_created", renderBool a.task_created),
   ("source_type", renderJsonString a.source_type),
   ("related_meeting", renderOptStr a.related_meeting),
   ("group", renderOptStr a.group)]

/-- A dumped list of action items with `indent=2` layout. -/
def renderItemList (lvl : Nat) : List ActionItem → String
  | [] => "[]"
  | xs =>
    "[\n" ++
    String.intercalate ",\n"
      (xs.map fun a => ind (lvl + 1) ++ renderObjLines (lvl + 1) (actionItemPairs a)) ++
    "\n" ++ ind lvl ++ "]"

/-- `json.dump(state, f, indent=2)` for the four-key state record. -/
def renderState (st : RunState) : String :=
  renderObjLines 0
    [("seen_message_ids", renderStrList 1 st.seen_message_ids),
     ("seen_secondary_event_ids", renderStrList 1 st.seen_secondary_event_ids),
     ("last_check", renderOptStr st.last_check),
     ("last_action_items", renderItemList 1 st.last_action_items)]

/-! ### File-system model for the atomic write of `save_state` -/

/-- The two paths `save_state` touches: the canonical state file and the
temp file in the same directory.  `none` means the file does not exist. -/
structure FileSys where
  canonical : Option String := none
  temp : Option String := none
  deriving Repr, DecidableEq

/-- The file operations `save_state` performs after trimming.  `chmod`
does not change contents; POSIX `rename` atomically replaces the
canonical path with the temp file. -/
inductive FileOp where
  | writeTemp (content : String)
  | chmodTemp
  | renameTempToCanonical
  deriving Repr, DecidableEq

/-- Effect of one file operation. -/
def applyOp (fs : FileSys) : FileOp → FileSys
  | .writeTemp s => { fs with temp := some s }
  | .chmodTemp => fs
  | .renameTempToCanonical => { canonical := fs.temp, temp := none }

/-- Effect of a sequence of file operations. -/
def applyOps (fs : FileSys) (ops : List FileOp) : FileSys :=
  ops.foldl applyOp fs

/-- `save_state` from `state.py` as its file-operation sequence: trim,
write the full dump to the temp file, chmod it, rename it over the
canonical path.  A crash at step `k` is modelled by executing only the
first `k` operations. -/
def save_state_ops (st : RunState) : List FileOp :=
  [.writeTemp (renderState (save_state_trim st)), .chmodTemp, .renameTempToCanonical]

/-! ## Agent workflow (`agent.py`: `run_agent`) -/

/-- Key lookup on a decoded JSON object (`dict.get`, no default). -/
def lookupKey (j : Json) (k : String) : Option Json :=
  match j with
  | .obj ms => (ms.find? fun m => m.1 == k).map fun m => m.2
  | _ => none

/-- `result.get(k, [])` for an array-valued key.  The output schema
guarantees the key, when present, holds an array. -/
def getArr (j : Json) (k : String) : List Json :=
  match lookupKey j k with
  | some (.arr xs) => xs
  | _ => []

/-- `result.get(k, [])` for an array of strings, as used for the two
processed-id lists.  The schema guarantees string entries. -/
def getStrListField (j : Json) (k : String) : List String :=
  (getArr j k).filterMap fun v =>
    match v with
    | .str s => some s
    | _ => none

/-- `item_data.get(k)` for a string-valued key. -/
def jsonStrField (j : Json) (k : String) : Option String :=
  match lookupKey j k with
  | some (.str s) => some s
  | _ => none

/-- `item_data.get(k)` for a boolean-valued key. -/
def jsonBoolField (j : Json) (k : String) : Option Bool :=
  match lookupKey j k with
  | some (.bool b) => some b
  | _ => none

/-- One raw `action_items` entry, decoded into the typed shape
`parse_action_items` reads (the schema fixes each field's type). -/
def jsonToRawItem (j : Json) : RawItem :=
  { id := jsonStrField j "id"
    subject := jsonStrField j "subject"
    sender := jsonStrField j "sender"
    priority := jsonStrField j "priority"
    action := jsonStrField j "action"
    due_date := jsonStrField j "due_date"
    create_task := jsonBoolField j "create_task"
    task_created := jsonBoolField j "task_created"
    source_type := jsonStrField j "source_type"
    related_meeting := jsonStrField j "related_meeting" }

/-- `parse_action_items` applied to the decoded agent result. -/
def parse_action_items_json (now : String) (result : Json) : List ActionItem :=
  parse_action_items now ((getArr result "action_items").map jsonToRawItem)

/-- `list(set(seen) | set(new))` from the reconciliation step of
`run_agent`.  Python materializes the union in unspecified order; the
model fixes one order (first occurrences of `seen ++ new`), and every
theorem about the merge is stated on the underlying set. -/
def mergeIds (seen new : List String) : List String :=
  (seen ++ new).dedup

/-- The fields of a `ResultMessage` that `run_agent` reads.  `result` is
`none` for a missing reply text (Python treats `None` and `""` alike via
`if result_text:`); `structured_output` is `none` when the attribute is
missing or `None`. -/
structure ResultMsg where
  is_error : Bool := false
  result : Option String := none
  structured_output : Option Json := none

/-- One message of the `query` stream; anything that is not a
`ResultMessage` is skipped by the loop. -/
inductive AgentMessage where
  | other
  | res (m : ResultMsg)

/-- The three abort conditions of `run_agent`: an agent-reported error
result, a reply text that fails JSON extraction, and an exchange that
ends with no result data at all. -/
inductive AbortReason where
  | agentError
  | malformedReply
  | noResult
  deriving Repr, DecidableEq

/-- `if result_data is None and ... message.structured_output:` — the
fallback to the structured output, with Python truthiness. -/
def pickStructured (rd : Option Json) (m : ResultMsg) : Option Json :=
  match rd with
  | some j => some j
  | none =>
    match m.structured_output with
    | some j => if jsonTruthy j then some j else none
    | none => none

/-- The body of the message loop in `run_agent` for one `ResultMessage`:
an error result aborts; a non-empty reply text must extract as JSON or
the run aborts; otherwise the structured output may fill in. -/
def stepResultMsg (rd : Option Json) (m : ResultMsg) :
    Except AbortReason (Option Json) :=
  if m.is_error then .error .agentError
  else
    match m.result with
    | some t =>
      if !t.isEmpty then
        match extract_json t with
        | .ok j => .ok (pickStructured (some j) m)
        | .error _ => .error .malformedReply
      else .ok (pickStructured rd m)
    | none => .ok (pickStructured rd m)

/-- The whole `async for` loop of `run_agent` over the message stream,
threading `result_data`. -/
def processMessages (rd : Option Json) : List AgentMessage → Except AbortReason (Option Json)
  | [] => .ok rd
  | .other :: rest => processMessages rd rest
  | .res m :: rest =>
    match stepResultMsg rd m with
    | .error r => .error r
    | .ok rd' => processMessages rd' rest

/-- The externally visible writes `run_agent` can perform after the
exchange (process logging aside): the desktop notification, the action
log append, and the state save. -/
inductive Effect where
  | notify (items : List ActionItem)
  | appendLog (items : List ActionItem)
  | save (st : RunState)
  deriving Repr, DecidableEq

/-- `run_agent` from `agent.py`: the loaded state, the message stream of
the one agent exchange, the `dry_run` flag and the current timestamp
determine the abort condition (if any) and the ordered list of external
writes.  On the success path the state is reconciled by set union of the
seen and processed ids and saved; in a dry run nothing is written. -/
def run_agent (st : RunState) (msgs : List AgentMessage) (dry_run : Bool)
    (now : String) : Option AbortReason × List Effect :=
  match processMessages none msgs with
  | .error r => (some r, [])
  | .ok none => (some .noResult, [])
  | .ok (some data) =>
    let items := parse_action_items_json now data
    if dry_run then (none, [])
    else
      let fx := if items.isEmpty then [] else [Effect.notify items, Effect.appendLog items]
      let st' : RunState :=
        { seen_message_ids :=
            mergeIds st.seen_message_ids (getStrListField data "processed_message_ids")
          seen_secondary_event_ids :=
            mergeIds st.seen_secondary_event_ids
              (getStrListField data "processed_secondary_event_ids")
          last_check := some now
          last_action_items := items }
      (none, fx ++ [Effect.save st'])

/-! ## Concrete inputs used by the examples and counterexamples -/

/-- The §8 override example: LOW priority, email source, `payroll@`
sender, agent-supplied `create_task = false`. -/
def payrollRaw : RawItem :=
  { priority := some "LOW", source_type := some "email",
    sender := some "payroll@company.com", create_task := some false }

/-- A raw item whose sender is not already lower-case. -/
def mixedCaseRaw : RawItem :=
  { sender := some "Payroll@Company.com" }

/-- The §8 extraction example reply. -/
def exampleReply : String :=
  "Here is the result:\n```json\n\x7b\"action_items\": []\x7d\n```\n"

/-- A reply with an opening `"```json"` marker but no closing fence. -/
def unclosedFenceReply : String := "```json\n\x7b\"flag\": true\x7d"

/-- An error result message. -/
def errorMessage : AgentMessage := .res { is_error := true }

/-- The empty run state. -/
def st0 : RunState := {}

/-! ## Helper lemmas -/

/-- The trimming slice of `save_state` always equals dropping everything
before the last `MAX_SEEN_IDS` entries (a no-op drop of `0` when the list
is within the cap). -/
theorem boundIds_eq (l : List String) :
    boundIds l = l.drop (l.length - MAX_SEEN_IDS) := by
  unfold boundIds
  split
  · rfl
  · next h =>
    have h0 : l.length - MAX_SEEN_IDS = 0 := by omega
    rw [h0, List.drop_zero]

/-- The trimmed list is within the cap. -/
theorem boundIds_len (l : List String) : (boundIds l).length ≤ MAX_SEEN_IDS := by
  rw [boundIds_eq, List.length_drop]
  by_cases h : l.length ≤ MAX_SEEN_IDS <;> omega

/-- Each guarded override step of `parse_action_items` is a boolean or. -/
theorem if_not_and_eq (c b : Bool) : (if !c && b then true else c) = (c || b) := by
  cases c <;> cases b <;> rfl

/-- The sender loop sets the flag exactly when some pattern matches. -/
theorem forceForSenders_eq (l : List String) (s : String) (ct : Bool) :
    forceForSenders l s ct = (ct || l.any fun p => hasSub s p) := by
  induction l with
  | nil => simp [forceForSenders]
  | cons p ps ih =>
    simp only [forceForSenders, List.any_cons]
    cases hps : hasSub s p <;> simp [hps, ih]

/-- The guarded sender loop is also a boolean or. -/
theorem if_not_force_eq (l : List String) (s : String) (c : Bool) :
    (if !c then forceForSenders l s c else c) = (c || l.any fun p => hasSub s p) := by
  cases c <;> simp [forceForSenders_eq]

/-- The override chain of `parse_action_items`, flattened: the final
`create_task` is the or of the agent's value with the four forcing
conditions. -/
theorem createTask_or (now : String) (d : RawItem) :
    (parseOneItem now d).create_task =
      (d.create_task.getD false
       || (d.priority.getD "MEDIUM" == "HIGH")
       || (d.source_type.getD "email" == "gemini_notes")
       || (d.source_type.getD "email" == "starred")
       || HIGH_PRIORITY_SENDERS.any fun p =>
            hasSub (strLower (d.sender.getD "(unknown)")) p) := by
  simp only [parseOneItem, if_not_and_eq, if_not_force_eq, Bool.or_assoc]

/-- Transitivity of the boolean prefix test on character lists. -/
theorem isPrefixOf_trans (l₁ l₂ l₃ : List Char) (h₁ : l₁.isPrefixOf l₂ = true)
    (h₂ : l₂.isPrefixOf l₃ = true) : l₁.isPrefixOf l₃ = true := by
  induction l₁ generalizing l₂ l₃ with
  | nil => simp [List.isPrefixOf]
  | cons a as ih =>
    cases l₂ with
    | nil => simp [List.isPrefixOf] at h₁
    | cons b bs =>
      cases l₃ with
      | nil => simp [List.isPrefixOf] at h₂
      | cons c cs =>
        simp only [List.isPrefixOf, Bool.and_eq_true, beq_iff_eq] at h₁ h₂ ⊢
        exact ⟨h₁.1.trans h₂.1, ih bs cs h₁.2 h₂.2⟩

/-- If a needle does not occur, no extension of it occurs. -/
theorem findSubAux_none_of_prefix (n₁ n₂ : List Char)
    (h12 : n₁.isPrefixOf n₂ = true) :
    ∀ (hay : List Char) (i : Nat),
      findSubAux n₁ hay i = none → findSubAux n₂ hay i = none := by
  intro hay
  induction hay with
  | nil =>
    intro i h
    simp only [findSubAux] at h ⊢
    split at h
    · exact absurd h (by simp)
    · next hn₁ =>
      split
      · next hn₂ => exact absurd (isPrefixOf_trans n₁ n₂ [] h12 hn₂) hn₁
      · rfl
  | cons c cs ih =>
    intro i h
    simp only [findSubAux] at h ⊢
    split at h
    · exact absurd h (by simp)
    · next hn₁ =>
      split
      · next hn₂ => exact absurd (isPrefixOf_trans n₁ n₂ (c :: cs) h12 hn₂) hn₁
      · exact ih (i + 1) h

/-- `findSub` version of the needle-extension lemma. -/
theorem findSub_none_of_prefix (hay n₁ n₂ : List Char)
    (h12 : n₁.isPrefixOf n₂ = true) (h : findSub hay n₁ = none) :
    findSub hay n₂ = none :=
  findSubAux_none_of_prefix n₁ n₂ h12 hay 0 h

/-- A false `hasSub` means the search comes back empty. -/
theorem findSub_eq_none_of_hasSub (t needle : String)
    (h : hasSub t needle = false) : findSub t.toList needle.toList = none := by
  unfold hasSub at h
  cases hf : findSub t.toList needle.toList with
  | none => rfl
  | some i => rw [hf] at h; simp at h

/-- The appending loop of `parse_action_items` is a map. -/
theorem parse_foldl_aux (now : String) (raws : List RawItem) :
    ∀ acc : List ActionItem,
      raws.foldl (fun a d => a ++ [parseOneItem now d]) acc
        = acc ++ raws.map (parseOneItem now) := by
  induction raws with
  | nil => intro acc; simp
  | cons d ds ih => intro acc; simp [List.foldl_cons, ih]

/-- The reconciliation merge computes the set union of its inputs. -/
theorem mergeIds_toFinset (a b : List String) :
    (mergeIds a b).toFinset = a.toFinset ∪ b.toFinset := by
  ext x
  simp [mergeIds, List.mem_dedup]

/-! ## Claims -/

/-- C1: for every state passed to `save_state`, after the trimming both
id lists have length at most `MAX_SEEN_IDS` (which is 500), and the
retained entries are exactly the most-recently-added tail of the input
list — everything after the first `length - MAX_SEEN_IDS` entries, so
older entries are dropped first. -/
theorem C1_save_state_bound : ∀ st : RunState,
    MAX_SEEN_IDS = 500
    ∧ ((save_state_trim st).seen_message_ids.length ≤ MAX_SEEN_IDS
       ∧ (save_state_trim st).seen_message_ids
         = st.seen_message_ids.drop (st.seen_message_ids.length - MAX_SEEN_IDS))
    ∧ ((save_state_trim st).seen_secondary_event_ids.length ≤ MAX_SEEN_IDS
       ∧ (save_state_trim st).seen_secondary_event_ids
         = st.seen_secondary_event_ids.drop
             (st.seen_secondary_event_ids.length - MAX_SEEN_IDS)) := by
  intro st
  exact ⟨rfl,
    ⟨boundIds_len st.seen_message_ids, boundIds_eq st.seen_message_ids⟩,
    ⟨boundIds_len st.seen_secondary_event_ids, boundIds_eq st.seen_secondary_event_ids⟩⟩

/-- C2: the output `create_task` of `parse_action_items` is the monotone
boolean or of the agent-supplied value with the four forcing conditions
(HIGH priority, `gemini_notes` source, `starred` source, or a configured
high-priority pattern occurring in the lower-cased sender); in
particular the LOW-priority `payroll@company.com` example comes out
`true`, with `"payroll@"` among the configured patterns. -/
theorem C2_forced_create_task :
    (∀ (now : String) (d : RawItem),
        (parseOneItem now d).create_task =
          (d.create_task.getD false
           || (d.priority.getD "MEDIUM" == "HIGH")
           || (d.source_type.getD "email" == "gemini_notes")
           || (d.source_type.getD "email" == "starred")
           || HIGH_PRIORITY_SENDERS.any fun p =>
                hasSub (strLower (d.sender.getD "(unknown)")) p))
    ∧ "payroll@" ∈ HIGH_PRIORITY_SENDERS
    ∧ (parseOneItem "2026-10-12T00:00:00+00:00" payrollRaw).create_task = true :=
  ⟨createTask_or, by decide, by rfl⟩

/-- C3 (counterexample): the claim's universal "a reply with no fences
and no braces produces the malformed-reply failure" fails on `"42"`,
which has neither fence nor brace yet decodes as JSON; and the claimed
priority order over complete fenced blocks fails on a reply whose
`"```json"` marker has no closing fence — the code decodes the whole raw
text and fails, where the claimed extraction would take the brace slice
and succeed. -/
theorem C3_counterexample :
    exOk (extract_json "42") = true
    ∧ hasSub "42" "```" = false ∧ hasSub "42" "\x7b" = false
    ∧ exOk (extract_json unclosedFenceReply) = false
    ∧ specExtractJson unclosedFenceReply = .ok (.obj [("flag", .bool true)]) :=
  ⟨rfl, rfl, rfl, rfl, rfl⟩

/-- C3 (amended): the extraction branch is chosen by the first present
opening marker (`"```json"`, else `"```"`, else `"\x7b"`); with none of
them present the raw text itself is decoded, and a text that then fails
to decode aborts the run with the malformed-reply condition and no
effects (no retry, no partial success).  The fenced §8 example extracts
to the object with an empty `action_items` array. -/
theorem C3_extraction :
    extract_json exampleReply = .ok (.obj [("action_items", .arr [])])
    ∧ (∀ t : String, hasSub t "```" = false → hasSub t "\x7b" = false →
        extract_json t = parseJson t)
    ∧ (∀ (st : RunState) (dry_run : Bool) (now t : String) (so : Option Json),
        t.isEmpty = false → exOk (extract_json t) = false →
        run_agent st
          [.res { is_error := false, result := some t, structured_output := so }]
          dry_run now
          = (some .malformedReply, [])) := by
  refine ⟨rfl, ?_, ?_⟩
  · intro t h3 hb
    have h3' : findSub t.toList ("```".toList) = none :=
      findSub_eq_none_of_hasSub t "```" h3
    have hj : findSub t.toList ("```json".toList) = none :=
      findSub_none_of_prefix t.toList _ _ (by rfl) h3'
    have hb' : findSub t.toList ("\x7b".toList) = none :=
      findSub_eq_none_of_hasSub t "\x7b" hb
    simp only [extract_json, extractCandidate, hj, h3', hb']
  · intro st dry_run now t so hne hex
    simp only [run_agent, processMessages, stepResultMsg, if_neg Bool.false_ne_true]
    cases hcase : extract_json t with
    | ok j => rw [hcase] at hex; simp [exOk] at hex
    | error e => simp [hne, hcase, run_agent, processMessages]

/-- C3 (witness): a plain-prose reply with no markers decodes raw and
aborts the run as malformed. -/
theorem C3_extraction_witness :
    extract_json "no markers here" = parseJson "no markers here"
    ∧ run_agent st0
        [.res { is_error := false, result := some "no markers here",
                structured_output := none }] false "t"
        = (some .malformedReply, []) :=
  ⟨C3_extraction.2.1 "no markers here" (by rfl) (by rfl),
   C3_extraction.2.2 st0 false "t" "no markers here" none (by rfl) (by rfl)⟩

/-- C4: a dry run produces no external writes at all — no state save, no
notification, no action-log append — whatever the message stream, the
prior state and the parsed items. -/
theorem C4_dry_run_pure :
    ∀ (st : RunState) (msgs : List AgentMessage) (now : String),
      (run_agent st msgs true now).2 = [] := by
  intro st msgs now
  unfold run_agent
  cases processMessages none msgs with
  | error r => rfl
  | ok rd =>
    cases rd with
    | none => rfl
    | some data => simp

/-- C5: the reconciliation merge computes the set union of the
previously seen ids and the newly reported ids, it is idempotent —
merging the merged result with the same reported ids again changes
nothing — and the §8 example gives the three-element set. -/
theorem C5_merge_union_idempotent :
    (∀ a b : List String, (mergeIds a b).toFinset = a.toFinset ∪ b.toFinset)
    ∧ (∀ a b : List String,
        (mergeIds (mergeIds a b) b).toFinset = (mergeIds a b).toFinset)
    ∧ (mergeIds ["a", "b"] ["b", "c"]).toFinset = ({"a", "b", "c"} : Finset String)
    ∧ (mergeIds ["a", "b"] ["b", "c"]).toFinset.card = 3 := by
  refine ⟨mergeIds_toFinset, fun a b => ?_, by decide, by decide⟩
  rw [mergeIds_toFinset, mergeIds_toFinset, Finset.union_assoc, Finset.union_self]

/-- C6: whenever the run aborts — the agent reported an error result,
the reply failed every extraction, or the exchange produced no result —
nothing is persisted: no state save, no notification, no log append. -/
theorem C6_abort_nothing_persisted :
    ∀ (st : RunState) (msgs : List AgentMessage) (dry_run : Bool) (now : String)
      (r : AbortReason),
      (run_agent st msgs dry_run now).1 = some r →
      (run_agent st msgs dry_run now).2 = [] := by
  intro st msgs dry_run now r h
  unfold run_agent at h ⊢
  cases hp : processMessages none msgs with
  | error r' => simp [hp]
  | ok rd =>
    cases rd with
    | none => simp [hp]
    | some data =>
      rw [hp] at h
      cases dry_run with
      | true => simp at h
      | false => simp at h

/-- C6 (witness): an error result message aborts with no effects. -/
theorem C6_abort_nothing_persisted_witness :
    (run_agent st0 [errorMessage] false "t").2 = [] :=
  C6_abort_nothing_persisted st0 [errorMessage] false "t" .agentError (by rfl)

/-- C7 (counterexample): the claim's "any decode failure returns the
default and never raises" is false — a state file containing the single
byte `0xff` is not valid UTF-8, so `json.load` raises
`UnicodeDecodeError`, which `except (json.JSONDecodeError, IOError)`
does not catch: the call raises instead of returning the default. -/
theorem C7_counterexample :
    load_state (some [0xff]) = .error .unicodeDecodeError
    ∧ loadOk (load_state (some [0xff])) = false :=
  ⟨rfl, rfl⟩

/-- C7 (amended): `load_state` returns the default empty state on a
missing file and on any contents that decode as text but fail to parse
as JSON — in particular a file containing non-JSON garbage text yields
the default state — while a file whose bytes are not valid UTF-8 raises
an uncaught `UnicodeDecodeError`. -/
theorem C7_load_default_on_failure :
    load_state none = .ok default_state_json
    ∧ (∀ (bs : List Nat) (cs : List Char), utf8Decode bs = some cs →
        exOk (parseJson (String.mk cs)) = false →
        load_state (some bs) = .ok default_state_json)
    ∧ (∀ bs : List Nat, utf8Decode bs = none →
        load_state (some bs) = .error .unicodeDecodeError)
    ∧ load_state (some (utf8Encode "this is not json")) = .ok default_state_json := by
  refine ⟨rfl, ?_, ?_, rfl⟩
  · intro bs cs h1 h2
    cases hp : parseJson (String.mk cs) with
    | ok j => rw [hp] at h2; simp [exOk] at h2
    | error e => simp [load_state, h1, hp]
  · intro bs h1
    simp [load_state, h1]

/-- C7 (witness): an unbalanced brace soup, written as UTF-8 bytes,
loads as the default state; a truncated two-byte sequence raises. -/
theorem C7_load_default_on_failure_witness :
    load_state (some (utf8Encode "\x7b\x7b\x7b")) = .ok default_state_json
    ∧ load_state (some [0xc3, 0x28]) = .error .unicodeDecodeError :=
  ⟨C7_load_default_on_failure.2.1 (utf8Encode "\x7b\x7b\x7b") ("\x7b\x7b\x7b".toList)
      (by rfl) (by rfl),
   C7_load_default_on_failure.2.2.1 [0xc3, 0x28] (by rfl)⟩

/-- C8: `save_state` writes the full dump to a temp file and renames it
over the canonical path, so a crash at any point before the rename
leaves the canonical file exactly as before the call (neither missing
nor truncated relative to it), every crash point shows either the old
contents or the complete new dump, and the full sequence installs the
complete new dump. -/
theorem C8_atomic_save :
    ∀ (fs : FileSys) (st : RunState) (k : Nat),
      (k ≤ 2 → (applyOps fs ((save_state_ops st).take k)).canonical = fs.canonical)
      ∧ ((applyOps fs ((save_state_ops st).take k)).canonical = fs.canonical
         ∨ (applyOps fs ((save_state_ops st).take k)).canonical
           = some (renderState (save_state_trim st)))
      ∧ (applyOps fs (save_state_ops st)).canonical
        = some (renderState (save_state_trim st)) := by
  intro fs st k
  refine ⟨fun hk => ?_, ?_, rfl⟩
  · interval_cases k <;> rfl
  · match k with
    | 0 => exact Or.inl rfl
    | 1 => exact Or.inl rfl
    | 2 => exact Or.inl rfl
    | n + 3 =>
      refine Or.inr ?_
      rw [List.take_of_length_le (by simp [save_state_ops])]
      rfl

/-- C8 (witness): stopping right before the rename leaves the old
canonical contents in place. -/
theorem C8_atomic_save_witness :
    (applyOps { canonical := some "old state", temp := none }
      ((save_state_ops st0).take 2)).canonical = some "old state" :=
  (C8_atomic_save { canonical := some "old state", temp := none } st0 2).1 (by decide)

/-- C9 (counterexample): the claim that the resulting `ActionItem`'s
sender field is the lower-cased sender is false — `parse_action_items`
lower-cases the sender only for the pattern match and stores the
original string. -/
theorem C9_counterexample :
    (parseOneItem "t" mixedCaseRaw).sender = "Payroll@Company.com"
    ∧ (parseOneItem "t" mixedCaseRaw).sender
      ≠ strLower (mixedCaseRaw.sender.getD "(unknown)") :=
  ⟨rfl, by decide⟩

/-- C9 (amended): the resulting `ActionItem` keeps the original sender
string (defaulting to `"(unknown)"` when absent; the lower-cased copy is
used only for the high-priority pattern match), priority defaults to
MEDIUM, source_type defaults to email, an absent `create_task` behaves
exactly as an explicit `false`, and the output preserves input order. -/
theorem C9_parse_fields :
    (∀ (now : String) (d : RawItem),
        (parseOneItem now d).sender = d.sender.getD "(unknown)")
    ∧ (∀ (now : String) (d : RawItem),
        (parseOneItem now d).priority = d.priority.getD "MEDIUM")
    ∧ (∀ (now : String) (d : RawItem),
        (parseOneItem now d).source_type = d.source_type.getD "email")
    ∧ (∀ (now : String) (d : RawItem), d.create_task = none →
        parseOneItem now d = parseOneItem now { d with create_task := some false })
    ∧ (∀ (now : String) (raws : List RawItem),
        parse_action_items now raws = raws.map (parseOneItem now)) := by
  refine ⟨fun now d => rfl, fun now d => rfl, fun now d => rfl, ?_, ?_⟩
  · intro now d h
    simp [parseOneItem, h]
  · intro now raws
    simp [parse_action_items, parse_foldl_aux]

/-- C9 (witness): an all-defaults raw item parses the same as one with
an explicit `create_task = false`. -/
theorem C9_parse_fields_witness :
    parseOneItem "t" {} = parseOneItem "t" { ({} : RawItem) with create_task := some false } :=
  C9_parse_fields.2.2.2.1 "t" {} rfl

/-- C10: a successfully decoded state file is returned by `load_state`
unchanged, with no schema validation — even an array or a bare string
comes back as-is; the default state is substituted only on decode
failure. -/
theorem C10_load_no_validation :
    (∀ (bs : List Nat) (cs : List Char) (j : Json),
        utf8Decode bs = some cs → parseJson (String.mk cs) = .ok j →
        load_state (some bs) = .ok j)
    ∧ load_state (some (utf8Encode "[\"a\", \"b\"]")) = .ok (.arr [.str "a", .str "b"])
    ∧ load_state (some (utf8Encode "\"just text\"")) = .ok (.str "just text") := by
  refine ⟨?_, rfl, rfl⟩
  intro bs cs j h1 h2
  simp [load_state, h1, h2]

/-- C10 (witness): a bare `true` loads back as the boolean value. -/
theorem C10_load_no_validation_witness :
    load_state (some (utf8Encode "true")) = .ok (Json.bool true) :=
  C10_load_no_validation.1 (utf8Encode "true") ("true".toList) (Json.bool true)
    (by rfl) (by rfl)

end GTA
